import Mathlib

/-!
Verification of the DeepSearch AI orchestration core.

The development shallowly embeds the server-side chat agent
(groundwork/src/server.ts: the ChatAgent class, its webSearch and
getUserTimezone tools, and the streamText configuration) and the
client-side chat UI (groundwork/src/app.tsx: the onToolCall handler and
the three code paths that can submit a user message), and proves the
specified properties about these embeddings.  Library functions of the
ai SDK that are not part of the repository (the step loop of streamText,
pruneMessages, and the abort discipline) are modelled from the
specification; each such definition says so in its doc comment.
-/

namespace DeepSearch

/-- Raw search-result item as it appears in the provider JSON: in
JavaScript every field of an untyped object may be absent, so each field
is an Option. -/
structure RawResult where
  title : Option String
  url : Option String
  content : Option String
  deriving DecidableEq, Repr

/-- Parsed provider response body: the code reads only the results field
of the JSON object, which may be absent. -/
structure ProviderData where
  results : Option (List RawResult)
  deriving DecidableEq, Repr

/-- One item of the value returned by webSearch.execute. -/
structure SearchResultItem where
  title : Option String
  url : Option String
  content : Option String
  deriving DecidableEq, Repr

/-- The value returned by webSearch.execute on success. -/
structure WebSearchOutput where
  query : String
  results : List SearchResultItem
  deriving DecidableEq, Repr

/-- Embedding of the JavaScript string method slice(0, n): the first n
characters of the string. -/
def sliceTo (s : String) (n : Nat) : String :=
  String.mk (s.data.take n)

/-- Embedding of the result mapping in webSearch.execute
(server.ts lines 61 to 65): title and url are copied through, content is
truncated by optional chaining to its first 500 characters. -/
def mapResult (r : RawResult) : SearchResultItem :=
  { title := r.title
    url := r.url
    content := r.content.map (fun c => sliceTo c 500) }

/-- Embedding of the value construction in webSearch.execute
(server.ts lines 59 to 66) after the response body has been parsed:
data.results is mapped when present, and the nullish coalescing operator
substitutes the empty list when it is absent. -/
def webSearchExecuteData (query : String) (data : ProviderData) : WebSearchOutput :=
  { query := query
    results := (data.results.map (fun rs => rs.map mapResult)).getD [] }

/-- Outcome of the fetch call inside webSearch.execute: the fetch
promise may reject (network failure), or resolve to a response whose
body either parses as JSON of the provider shape or does not parse. -/
inductive FetchOutcome where
  | reject (msg : String)
  | response (parsedBody : Option ProviderData)
  deriving DecidableEq, Repr

/-- Embedding of the whole of webSearch.execute (server.ts lines 45 to
67).  The body contains no try/catch: a rejected fetch propagates, and
response.json() throws on a body that is not JSON, which also
propagates; both are Except.error here.  Only after a successful parse
does the code build its result via webSearchExecuteData. -/
def webSearchExecute (query : String) (outcome : FetchOutcome) :
    Except String WebSearchOutput :=
  match outcome with
  | FetchOutcome.reject msg => Except.error msg
  | FetchOutcome.response none =>
      Except.error "SyntaxError: Unexpected end of JSON input"
  | FetchOutcome.response (some data) =>
      Except.ok (webSearchExecuteData query data)

/-- The HTTP request issued by webSearch.execute (server.ts lines 46 to
57), with the JSON body fields spelled out. -/
structure SearchRequest where
  url : String
  method : String
  contentType : String
  authHeader : String
  bodyQuery : String
  bodyMaxResults : Nat
  bodySearchDepth : String
  deriving DecidableEq, Repr

/-- Embedding of the fetch-request construction in webSearch.execute
(server.ts lines 46 to 57). -/
def buildSearchRequest (apiKey query : String) : SearchRequest :=
  { url := "https://api.tavily.com/search"
    method := "POST"
    contentType := "application/json"
    authHeader := "Bearer " ++ apiKey
    bodyQuery := query
    bodyMaxResults := 5
    bodySearchDepth := "basic" }

theorem length_sliceTo (s : String) (n : Nat) : (sliceTo s n).length ≤ n := by
  have h : (sliceTo s n).length = (s.data.take n).length := rfl
  rw [h, List.length_take]
  exact Nat.min_le_left _ _

/-- C1 counterexample: webSearch.execute has no try/catch, so a provider
failure does not yield the well-formed empty result.  A rejected fetch
propagates the rejection, and a response body that is not JSON makes
response.json() throw instead of returning the empty result list. -/
theorem c1_counterexample :
    webSearchExecute "quantum computing" (FetchOutcome.reject "TypeError: fetch failed") =
      Except.error "TypeError: fetch failed" ∧
    webSearchExecute "quantum computing" (FetchOutcome.response none) ≠
      Except.ok { query := "quantum computing", results := [] } := by
  exact ⟨rfl, by simp [webSearchExecute]⟩

/-- C1 (amended): for every provider response whose body parses as JSON
of the provider shape, webSearch.execute returns a well-formed result
without raising, and when the results field is absent the result is
exactly the query paired with the empty list; a network failure of the
fetch itself or a body that fails JSON parsing, however, propagates as
an exception. -/
theorem c1_amended (query : String) (data : ProviderData) :
    (∃ out, webSearchExecute query (FetchOutcome.response (some data)) = Except.ok out) ∧
    (data.results = none →
      webSearchExecute query (FetchOutcome.response (some data)) =
        Except.ok { query := query, results := [] }) := by
  refine ⟨⟨webSearchExecuteData query data, rfl⟩, ?_⟩
  intro h
  simp [webSearchExecute, webSearchExecuteData, h]

/-- Witness for c1_amended at a concrete response whose JSON body lacks
the results field. -/
theorem c1_witness :
    (∃ out, webSearchExecute "q" (FetchOutcome.response (some { results := none })) =
       Except.ok out) ∧
    webSearchExecute "q" (FetchOutcome.response (some { results := none })) =
      Except.ok { query := "q", results := [] } :=
  ⟨(c1_amended "q" { results := none }).1,
   (c1_amended "q" { results := none }).2 rfl⟩

/-- A provider response carrying six result items, more than the five
the request asked for. -/
def sixResultsData : ProviderData :=
  { results := some (List.replicate 6
      { title := some "t", url := some "u", content := some "c" }) }

/-- C3 counterexample: webSearch.execute never clamps the number of
returned results; it returns exactly as many items as the provider body
contains, so a provider response carrying six items yields six results,
refuting the claim that the returned value contains at most five. -/
theorem c3_counterexample :
    ¬ (webSearchExecuteData "crm tools" sixResultsData).results.length ≤ 5 := by
  decide

/-- C3 (amended): the request sent to the provider asks for at most five
results (max_results = 5), and every content field present in the
returned value is truncated to at most 500 characters; the number of
returned results equals the number of items in the provider response and
is not re-clamped server side. -/
theorem c3_amended (apiKey query : String) (data : ProviderData) :
    (buildSearchRequest apiKey query).bodyMaxResults = 5 ∧
    (∀ r ∈ (webSearchExecuteData query data).results,
       ∀ c, r.content = some c → c.length ≤ 500) ∧
    (webSearchExecuteData query data).results.length =
      (data.results.getD []).length := by
  refine ⟨rfl, ?_, ?_⟩
  · intro r hr c hc
    cases hres : data.results with
    | none => simp [webSearchExecuteData, hres] at hr
    | some rs =>
        simp [webSearchExecuteData, hres] at hr
        obtain ⟨r0, _, rfl⟩ := hr
        cases hc0 : r0.content with
        | none => simp [mapResult, hc0] at hc
        | some s =>
            simp [mapResult, hc0] at hc
            subst hc
            exact length_sliceTo s 500
  · cases hres : data.results with
    | none => simp [webSearchExecuteData, hres]
    | some rs => simp [webSearchExecuteData, hres]

/-- Witness for c3_amended at a concrete one-item provider response. -/
theorem c3_witness :
    ("abc".length ≤ 500) ∧ (buildSearchRequest "key" "q").bodyMaxResults = 5 := by
  have h := c3_amended "key" "q"
    { results := some [{ title := some "t", url := some "u", content := some "abc" }] }
  refine ⟨h.2.1 { title := some "t", url := some "u", content := some "abc" } ?_ "abc" rfl, h.1⟩
  decide

/-- C9: the search-provider request built by webSearch.execute is a POST
to the Tavily endpoint with a JSON content type, a bearer-token
Authorization header, and a body holding exactly the query, a
max_results of five and basic search depth; and every response body that
parses to the provider shape (a results list of title, url, content
items) is consumed into the returned value. -/
theorem c9_request_shape (apiKey query : String) :
    (buildSearchRequest apiKey query).method = "POST" ∧
    (buildSearchRequest apiKey query).url = "https://api.tavily.com/search" ∧
    (buildSearchRequest apiKey query).contentType = "application/json" ∧
    (buildSearchRequest apiKey query).authHeader = "Bearer " ++ apiKey ∧
    (buildSearchRequest apiKey query).bodyQuery = query ∧
    (buildSearchRequest apiKey query).bodyMaxResults = 5 ∧
    (buildSearchRequest apiKey query).bodySearchDepth = "basic" ∧
    (∀ data : ProviderData,
       webSearchExecute query (FetchOutcome.response (some data)) =
         Except.ok (webSearchExecuteData query data)) := by
  exact ⟨rfl, rfl, rfl, rfl, rfl, rfl, rfl, fun data => rfl⟩

/-- C10: after a successful JSON parse webSearch.execute is total over
missing fields: an absent results field yields the query with an empty
result list, and a result item lacking a content field is mapped to an
item with its title, its url and an absent content value, with no
exception in either case. -/
theorem c10_total_over_missing_fields (query : String) (t u : Option String) :
    webSearchExecuteData query { results := none } = { query := query, results := [] } ∧
    mapResult { title := t, url := u, content := none } =
      { title := t, url := u, content := none } ∧
    webSearchExecute query (FetchOutcome.response (some { results := none })) =
      Except.ok { query := query, results := [] } := by
  exact ⟨rfl, rfl, rfl⟩

/-- Role of a Message, per the data model. -/
inductive Role where
  | user
  | assistant
  | tool
  deriving DecidableEq, Repr

/-- One Part of a Message: text, reasoning with its streaming flag, a
tool call, or a tool result keyed by the originating call id. -/
inductive Part where
  | text (s : String)
  | reasoning (s : String) (done : Bool)
  | toolCall (toolName callId input : String)
  | toolResult (callId output : String)
  deriving DecidableEq, Repr

/-- A Message: a role and an ordered sequence of Parts. -/
structure Message where
  role : Role
  parts : List Part
  deriving DecidableEq, Repr

/-- Whether a Part is a tool payload (tool call or tool result). -/
def isToolPart : Part → Bool
  | Part.toolCall _ _ _ => true
  | Part.toolResult _ _ => true
  | _ => false

/-- Dropping the tool payloads of one message. -/
def pruneMessage (m : Message) : Message :=
  { m with parts := m.parts.filter (fun p => !isToolPart p) }

/-- Modelled from the spec: pruneMessages of the ai SDK, called at
server.ts lines 35 to 38 with the toolCalls policy
before-last-2-messages, is library code that is not part of this
repository.  Per the spec it keeps full tool-call and tool-result detail
only for the two most recent messages and drops the tool payloads from
all earlier messages, leaving conversational text in place. -/
def pruneMessages (msgs : List Message) : List Message :=
  (msgs.take (msgs.length - 2)).map pruneMessage ++ msgs.drop (msgs.length - 2)

theorem pruneMessage_idem (m : Message) : pruneMessage (pruneMessage m) = pruneMessage m := by
  simp [pruneMessage, List.filter_filter]

theorem pruneMessages_length (msgs : List Message) :
    (pruneMessages msgs).length = msgs.length := by
  simp [pruneMessages]

/-- C5: the context pruner is idempotent: pruning an already-pruned
message sequence with the before-last-2-messages policy yields no
further changes. -/
theorem c5_prune_idempotent (msgs : List Message) :
    pruneMessages (pruneMessages msgs) = pruneMessages msgs := by
  obtain ⟨A, B, hsplit, hAlen, hAfix⟩ :
      ∃ A B, pruneMessages msgs = A ++ B ∧ A.length = msgs.length - 2 ∧
        A.map pruneMessage = A := by
    refine ⟨(msgs.take (msgs.length - 2)).map pruneMessage,
      msgs.drop (msgs.length - 2), rfl, ?_, ?_⟩
    · simp [List.length_take]
    · rw [List.map_map]
      exact List.map_congr_left (fun m _ => pruneMessage_idem m)
  have hlen : (A ++ B).length = msgs.length := by
    rw [← hsplit]
    exact pruneMessages_length msgs
  rw [hsplit]
  show ((A ++ B).take ((A ++ B).length - 2)).map pruneMessage ++
      (A ++ B).drop ((A ++ B).length - 2) = A ++ B
  rw [hlen, ← hAlen, List.take_left, List.drop_left, hAfix]

/-- The session state of the chat agent: it owns the full message
history (this.messages of AIChatAgent). -/
structure SessionState where
  messages : List Message
  deriving DecidableEq, Repr

/-- The generation request assembled by onChatMessage and handed to
streamText (server.ts lines 22 to 78). -/
structure GenRequest where
  model : String
  system : String
  messages : List Message
  toolNames : List String
  stopAtStepCount : Nat
  usesAbortSignal : Bool
  deriving DecidableEq, Repr

/-- The system directive of the generation request (server.ts lines 24
to 34). -/
def systemDirective : String :=
  "You are DeepSearch AI, an expert multi-step research agent. \n\nWhen a user asks a research question, you must:\n1. DECOMPOSE the question into 2-3 specific sub-topics to research\n2. SEARCH each sub-topic using the webSearch tool\n3. ANALYZE the results and extract key findings\n4. SYNTHESIZE everything into a clear, structured research brief\n\nAlways think step by step. Show your reasoning. Use multiple searches to build a complete picture.\nFormat your final answer with clear sections: Summary, Key Findings, and Conclusion.\nCite your sources."

/-- One ToolDefinition of the registry: name, description, whether an
input schema is declared, and whether a server-side execute body is
declared. -/
structure ToolDefinition where
  name : String
  description : String
  hasInputSchema : Bool
  hasExecute : Bool
  deriving DecidableEq, Repr

/-- The webSearch tool declaration (server.ts lines 40 to 68): input
schema with a query string and a server-side execute body. -/
def webSearch : ToolDefinition :=
  { name := "webSearch"
    description := "Search the web for information on a topic. Use this multiple times to research different aspects of the question."
    hasInputSchema := true
    hasExecute := true }

/-- The getUserTimezone tool declaration (server.ts lines 70 to 73): a
description and an empty-object input schema, and no execute body. -/
def getUserTimezone : ToolDefinition :=
  { name := "getUserTimezone"
    description := "Get the user's timezone from their browser."
    hasInputSchema := true
    hasExecute := false }

/-- The tool registry passed to streamText (server.ts lines 39 to 74). -/
def tools : List ToolDefinition := [webSearch, getUserTimezone]

/-- Embedding of onChatMessage (server.ts lines 16 to 81) as a state
transformer.  The conversion of stored UI messages to model messages is
an ai SDK function, so it is a parameter; the body reads this.messages,
assembles the generation request around the pruned converted history,
and never writes the stored history. -/
def onChatMessage (convertToModelMessages : List Message → List Message)
    (st : SessionState) : SessionState × GenRequest :=
  (st,
   { model := "@cf/meta/llama-3.3-70b-instruct-fp8-fast"
     system := systemDirective
     messages := pruneMessages (convertToModelMessages st.messages)
     toolNames := tools.map ToolDefinition.name
     stopAtStepCount := 10
     usesAbortSignal := true })

/-- C7: context pruning is pure with respect to the stored history: one
orchestration step leaves the session-owned message sequence unchanged,
and only the bounded view inside the generation request is the pruned
conversion of that history. -/
theorem c7_history_unchanged (convert : List Message → List Message)
    (st : SessionState) :
    (onChatMessage convert st).1.messages = st.messages ∧
    (onChatMessage convert st).2.messages = pruneMessages (convert st.messages) := by
  exact ⟨rfl, rfl⟩

/-- The tool output supplied by the client for getUserTimezone
(app.tsx lines 251 to 257). -/
structure ClientToolOutput where
  toolCallId : String
  timezone : String
  localTime : String
  deriving DecidableEq, Repr

/-- Embedding of the client-side onToolCall handler (app.tsx lines 246
to 259): it answers exactly the calls whose tool name is
getUserTimezone, with the client timezone and wall-clock time, keyed by
the originating tool call id; every other tool call is left alone. -/
def onToolCall (tz localTime toolName toolCallId : String) : Option ClientToolOutput :=
  if toolName == "getUserTimezone" then
    some { toolCallId := toolCallId, timezone := tz, localTime := localTime }
  else
    none

/-- C4: getUserTimezone is declared with an input schema but no
server-side execute body, while webSearch does have one; the client-side
channel intercepts exactly the calls to the getUserTimezone tool name
and answers them with the client timezone and local wall-clock time. -/
theorem c4_client_executed_tool :
    getUserTimezone.hasInputSchema = true ∧
    getUserTimezone.hasExecute = false ∧
    webSearch.hasExecute = true ∧
    (∀ tz lt id, onToolCall tz lt "getUserTimezone" id =
       some { toolCallId := id, timezone := tz, localTime := lt }) ∧
    (∀ tz lt id, onToolCall tz lt "webSearch" id = none) := by
  exact ⟨rfl, rfl, rfl, fun tz lt id => rfl, fun tz lt id => rfl⟩

/-- The client UI state relevant to submitting a message: connection
flag, streaming flag, composer input, and the currently shown prompt
bubble if any. -/
structure UIState where
  connected : Bool
  isStreaming : Bool
  input : String
  promptBubble : Option String
  deriving DecidableEq, Repr

/-- A user message submitted to the agent. -/
structure OutboundMessage where
  role : Role
  text : String
  deriving DecidableEq, Repr

/-- Embedding of the send callback (app.tsx lines 317 to 325): the input
is trimmed, and nothing is sent when it is empty or a generation is
streaming. -/
def send (st : UIState) : Option OutboundMessage :=
  let text := st.input.trim
  if text.isEmpty || st.isStreaming then none
  else some { role := Role.user, text := text }

/-- Embedding of an empty-state suggestion button (app.tsx lines 426 to
441): the button carries a disabled attribute while streaming, so its
click sends only when no generation is streaming. -/
def suggestionClick (st : UIState) (prompt : String) : Option OutboundMessage :=
  if st.isStreaming then none
  else some { role := Role.user, text := prompt }

/-- Embedding of the rotating prompt bubble (app.tsx lines 403 to 417):
its onClick calls sendMessage with the bubble text unconditionally
whenever a bubble is displayed; the button has no disabled attribute and
performs no streaming check. -/
def bubbleClick (st : UIState) : Option OutboundMessage :=
  st.promptBubble.map (fun t => { role := Role.user, text := t })

/-- A UI state in which a generation is streaming and a prompt bubble is
displayed. -/
def streamingBubbleState : UIState :=
  { connected := true
    isStreaming := true
    input := ""
    promptBubble := some "Compare CRMs for a 5-person startup." }

/-- C8 counterexample: while a generation is still streaming, a click on
the rotating prompt bubble submits a new user message, so the client
does accept a new user message while a prior step sequence for the same
session is in progress. -/
theorem c8_counterexample :
    streamingBubbleState.isStreaming = true ∧
    bubbleClick streamingBubbleState =
      some { role := Role.user, text := "Compare CRMs for a 5-person startup." } := by
  exact ⟨rfl, rfl⟩

/-- C8 (amended): while a generation is streaming, the composer send
path and the suggestion buttons refuse to submit a new user message; the
rotating prompt-bubble click path, however, performs no in-flight check
and can submit one. -/
theorem c8_amended (st : UIState) (prompt : String) (h : st.isStreaming = true) :
    send st = none ∧ suggestionClick st prompt = none := by
  constructor
  · simp [send, h]
  · simp [suggestionClick, h]

/-- Witness for c8_amended at the concrete streaming state. -/
theorem c8_witness :
    send streamingBubbleState = none ∧
    suggestionClick streamingBubbleState "x" = none :=
  c8_amended streamingBubbleState "x" rfl

/-- The outcome of one generation step: the content it produced and
whether it requested further tool calls. -/
structure StepOutput where
  content : String
  requestsTools : Bool
  deriving DecidableEq, Repr

/-- Embedding of the stepCountIs stop condition passed as stopWhen in
the streamText configuration (server.ts line 76): stop once the step
count has reached the given number. -/
def stepCountIs (n steps : Nat) : Bool := steps == n

/-- Modelled from the spec: the generation/tool-call loop that
streamText runs internally is ai SDK code that is not part of this
repository.  Per the spec the loop issues a generation step, executes
any requested tools, and repeats until a step requests no tools or the
stop condition fires; the step outcomes are abstracted as a function
from the step index.  The fuel argument equals the configured cap so the
recursion is structural. -/
def runSteps (stop : Nat → Bool) (gen : Nat → StepOutput) :
    Nat → Nat → String → Nat × String
  | 0, done, last => (done, last)
  | rem + 1, done, _last =>
      let out := gen done
      if stop (done + 1) || !out.requestsTools then (done + 1, out.content)
      else runSteps stop gen rem (done + 1) out.content

/-- The orchestration loop as configured by the repository: the stop
condition stepCountIs 10 from server.ts line 76.  Returns the number of
generation steps issued and the final content. -/
def orchestrate (gen : Nat → StepOutput) : Nat × String :=
  runSteps (stepCountIs 10) gen 10 0 ""

theorem runSteps_fst_le (stop : Nat → Bool) (gen : Nat → StepOutput) :
    ∀ rem done last, (runSteps stop gen rem done last).1 ≤ done + rem := by
  intro rem
  induction rem with
  | zero => intro done last; simp [runSteps]
  | succ r ih =>
      intro done last
      rw [runSteps]
      by_cases hc : (stop (done + 1) || !(gen done).requestsTools) = true
      · rw [if_pos hc]
        show done + 1 ≤ done + (r + 1)
        omega
      · rw [if_neg hc]
        have := ih (done + 1) (gen done).content
        omega

theorem runSteps_all_tools (gen : Nat → StepOutput)
    (h : ∀ i, (gen i).requestsTools = true) :
    ∀ rem done last, done + rem = 10 → 0 < rem →
      runSteps (stepCountIs 10) gen rem done last = (10, (gen 9).content) := by
  intro rem
  induction rem with
  | zero => intro done last hsum hpos; omega
  | succ r ih =>
      intro done last hsum _hpos
      rw [runSteps]
      rcases Nat.eq_zero_or_pos r with hr | hr
      · subst hr
        have hdone : done = 9 := by omega
        subst hdone
        have hc : (stepCountIs 10 (9 + 1) || !(gen 9).requestsTools) = true := by
          simp [stepCountIs]
        rw [if_pos hc]
      · have hc : ¬ (stepCountIs 10 (done + 1) || !(gen done).requestsTools) = true := by
          simp [stepCountIs, h done]
          omega
        rw [if_neg hc]
        exact ih (done + 1) (gen done).content (by omega) hr

/-- C2: the orchestrator issues at most 10 generation steps for a single
user message, and when every step keeps requesting tools the cap is
reached without error: the loop terminates after exactly 10 steps and
returns the content of the last generated step as final. -/
theorem c2_step_cap (gen : Nat → StepOutput) :
    (orchestrate gen).1 ≤ 10 ∧
    ((∀ i, (gen i).requestsTools = true) →
      orchestrate gen = (10, (gen 9).content)) := by
  constructor
  · exact runSteps_fst_le (stepCountIs 10) gen 10 0 ""
  · intro h
    exact runSteps_all_tools gen h 10 0 "" rfl (by omega)

/-- A step oracle that always requests further tools and labels each
step content with its index. -/
def allToolsGen : Nat → StepOutput :=
  fun i => { content := Nat.repr i, requestsTools := true }

/-- Witness for c2_step_cap at the always-requesting oracle: the loop
stops after exactly 10 steps with the content of step 9. -/
theorem c2_witness :
    (orchestrate allToolsGen).1 ≤ 10 ∧ orchestrate allToolsGen = (10, "9") := by
  have h := c2_step_cap allToolsGen
  refine ⟨h.1, ?_⟩
  rw [h.2 (fun i => rfl)]
  rfl

/-- One event observed by the step loop while a message is assembled. -/
inductive Event where
  | textDone (s : String)
  | toolStart (toolName callId input : String)
  | toolFinish (callId output : String)
  | cancel
  deriving DecidableEq, Repr

/-- Modelled from the spec: the append discipline of the orchestrator
under cancellation (the abortSignal is merely forwarded at server.ts
line 77 and raised by the stop control of app.tsx lines 583 to 592; the
discipline itself lives in the ai SDK).  Per the spec a completed text
fragment is appended at once; a tool call in flight is held back and
appended together with its result, keyed by the originating call id,
only when the tool finishes; a cancellation stops assembly, dropping the
in-flight call entirely and discarding the remaining events. -/
def assembleAux : Option (String × String × String) → List Event → List Part
  | _, [] => []
  | _, Event.cancel :: _ => []
  | pending, Event.textDone s :: es => Part.text s :: assembleAux pending es
  | _, Event.toolStart n i inp :: es => assembleAux (some (n, i, inp)) es
  | some (n, i, inp), Event.toolFinish _ out :: es =>
      Part.toolCall n i inp :: Part.toolResult i out :: assembleAux none es
  | none, Event.toolFinish _ _ :: es => assembleAux none es

/-- The parts of the final message assembled from a run's events. -/
def assemble (es : List Event) : List Part := assembleAux none es

theorem assembleAux_textDone (pending : Option (String × String × String))
    (s : String) (es : List Event) :
    assembleAux pending (Event.textDone s :: es) = Part.text s :: assembleAux pending es := by
  cases pending with
  | none => rfl
  | some p => obtain ⟨n, i, inp⟩ := p; rfl

theorem assembleAux_toolStart (pending : Option (String × String × String))
    (n i inp : String) (es : List Event) :
    assembleAux pending (Event.toolStart n i inp :: es) =
      assembleAux (some (n, i, inp)) es := by
  cases pending with
  | none => rfl
  | some p => obtain ⟨pn, pi, pinp⟩ := p; rfl

theorem assembleAux_cancel (pending : Option (String × String × String))
    (es : List Event) :
    assembleAux pending (Event.cancel :: es) = [] := by
  cases pending with
  | none => rfl
  | some p => obtain ⟨n, i, inp⟩ := p; rfl

theorem assembleAux_no_orphan :
    ∀ (es : List Event) (pending : Option (String × String × String))
      (n i inp : String),
      Part.toolCall n i inp ∈ assembleAux pending es →
      ∃ out, Part.toolResult i out ∈ assembleAux pending es := by
  intro es
  induction es with
  | nil =>
      intro pending n i inp h
      simp [assembleAux] at h
  | cons e tail ih =>
      intro pending n i inp h
      cases e with
      | textDone s =>
          rw [assembleAux_textDone] at h ⊢
          rcases List.mem_cons.mp h with h1 | h2
          · exact absurd h1 (by simp)
          · obtain ⟨out, hout⟩ := ih pending n i inp h2
            exact ⟨out, List.mem_cons_of_mem _ hout⟩
      | toolStart tn ti tinp =>
          rw [assembleAux_toolStart] at h ⊢
          exact ih (some (tn, ti, tinp)) n i inp h
      | toolFinish fid fout =>
          cases pending with
          | none =>
              rw [show assembleAux none (Event.toolFinish fid fout :: tail) =
                  assembleAux none tail from rfl] at h ⊢
              exact ih none n i inp h
          | some p =>
              obtain ⟨pn, pi, pinp⟩ := p
              rw [show assembleAux (some (pn, pi, pinp))
                    (Event.toolFinish fid fout :: tail) =
                  Part.toolCall pn pi pinp :: Part.toolResult pi fout ::
                    assembleAux none tail from rfl] at h ⊢
              rcases List.mem_cons.mp h with h1 | h2
              · have hi : i = pi := by
                  cases h1
                  rfl
                subst hi
                exact ⟨fout, List.mem_cons_of_mem _ (List.mem_cons_self _ _)⟩
              · rcases List.mem_cons.mp h2 with h3 | h4
                · exact absurd h3 (by simp)
                · obtain ⟨out, hout⟩ := ih none n i inp h4
                  exact ⟨out, List.mem_cons_of_mem _ (List.mem_cons_of_mem _ hout)⟩
      | cancel =>
          rw [assembleAux_cancel] at h
          simp at h

/-- C6: in the final message assembled from any run, including runs cut
short by a cancellation raised mid-tool-execution, no tool-call part is
left without a matching tool-result part: every appended call carries
its result, and an in-flight call interrupted by cancellation is absent
entirely. -/
theorem c6_no_orphan_tool_call (es : List Event) (n i inp : String)
    (h : Part.toolCall n i inp ∈ assemble es) :
    ∃ out, Part.toolResult i out ∈ assemble es :=
  assembleAux_no_orphan es none n i inp h

/-- A run cancelled while the second tool call is still executing. -/
def cancelTrace : List Event :=
  [Event.textDone "Researching the question.",
   Event.toolStart "webSearch" "call-1" "ai trends 2026",
   Event.toolFinish "call-1" "three results",
   Event.toolStart "webSearch" "call-2" "ev market outlook",
   Event.cancel]

/-- Witness for c6_no_orphan_tool_call on a trace cancelled mid-tool:
the completed call is present and matched, and the theorem yields its
result; the interrupted call is dropped from the assembled message. -/
theorem c6_witness :
    Part.toolCall "webSearch" "call-1" "ai trends 2026" ∈ assemble cancelTrace ∧
    (∃ out, Part.toolResult "call-1" out ∈ assemble cancelTrace) ∧
    Part.toolCall "webSearch" "call-2" "ev market outlook" ∉ assemble cancelTrace := by
  have hmem : Part.toolCall "webSearch" "call-1" "ai trends 2026" ∈ assemble cancelTrace := by
    decide
  exact ⟨hmem,
    c6_no_orphan_tool_call cancelTrace "webSearch" "call-1" "ai trends 2026" hmem,
    by decide⟩

end DeepSearch
